import Mathlib

/-!
Verification of the Fibonacci spiral application (Rust sources under `src/`)
against its natural-language specification.

Embedding conventions:
* `u64` arithmetic is modelled on `Nat` with an explicit `% 2 ^ 64` at every
  addition that the Rust code performs on `u64` values.
* `u32` indices are modelled as `Nat` (the Rust type system guarantees
  non-negativity; all bounds checked here keep values far below `2 ^ 32`).
* `f32` geometry is modelled over `ℚ`; the one operation with no exact rational
  counterpart, `f32::sqrt`, is abstracted as an explicit function parameter
  `s : ℚ → ℚ`, so theorems about the layout hold for every square-root
  implementation, and concrete witnesses instantiate `s` explicitly.
* Fallible steps (Rust `Result`, debug-mode arithmetic underflow) are modelled
  with `Except` / `Option`.
-/

namespace FibSpiral

/-! ## Fibonacci engine (`src/fibonacci.rs`, also duplicated in
`src/alternative.rs` lines 135-141) -/

/-- `fib` from `src/fibonacci.rs` lines 17-23 (and the identical copy in
`src/alternative.rs`): `if n < 2 { n as u64 } else { fib(n-1) + fib(n-2) }`.
The `u64` addition is modelled with an explicit wrap `% 2 ^ 64`. -/
def fib : Nat → Nat
  | 0 => 0
  | 1 => 1
  | n + 2 => (fib (n + 1) + fib n) % 2 ^ 64

/-- `generate_sequence` from `src/fibonacci.rs` lines 32-38: pushes `fib i`
for `i in 0..=n`, i.e. the list `[fib 0, …, fib n]`. -/
def generate_sequence (n : Nat) : List Nat :=
  (List.range (n + 1)).map fib

/-- Insertion into the memo table of `fib_memoized` (Rust
`HashMap::insert`, which overwrites an existing key). The `HashMap<u32,u64>`
is modelled as a partial map `Nat → Option Nat`. -/
def memoInsert (k v : Nat) (memo : Nat → Option Nat) : Nat → Option Nat :=
  fun x => if x = k then some v else memo x

/-- `fib_memo_helper` from `src/fibonacci.rs` lines 43-56: first consults the
memo table; otherwise computes `n` for `n < 2` and the sum of the two
recursive calls otherwise (the second call sees the memo updated by the
first), then stores the result under key `n`. -/
def fibMemoHelper : Nat → (Nat → Option Nat) → Nat × (Nat → Option Nat)
  | 0, memo =>
    match memo 0 with
    | some r => (r, memo)
    | none => (0, memoInsert 0 0 memo)
  | 1, memo =>
    match memo 1 with
    | some r => (r, memo)
    | none => (1, memoInsert 1 1 memo)
  | m + 2, memo =>
    match memo (m + 2) with
    | some r => (r, memo)
    | none =>
      let p1 := fibMemoHelper (m + 1) memo
      let p2 := fibMemoHelper m p1.2
      let r := (p1.1 + p2.1) % 2 ^ 64
      (r, memoInsert (m + 2) r p2.2)

/-- `fib_memoized` from `src/fibonacci.rs` lines 42-60: runs the helper on an
empty memo table. -/
def fib_memoized (n : Nat) : Nat :=
  (fibMemoHelper n (fun _ => none)).1

/-- One iteration of the `for i in 2..=n` loop of
`generate_sequence_iterative` (`src/fibonacci.rs` lines 75-78): pushes
`sequence[i-1] + sequence[i-2]`. At every entry into the loop body the Rust
loop index `i` equals `sequence.len()`, so the two reads are the last and the
second-to-last element; the remaining iteration count is the recursion fuel. -/
def genIterLoop : Nat → List Nat → List Nat
  | 0, seq => seq
  | k + 1, seq =>
    genIterLoop k
      (seq ++ [(seq.getD (seq.length - 1) 0 + seq.getD (seq.length - 2) 0) % 2 ^ 64])

/-- `generate_sequence_iterative` from `src/fibonacci.rs` lines 63-81:
returns `[0]` for `n = 0`, otherwise starts from `[0, 1]` and runs the loop
for `i in 2..=n` (that is, `n - 1` iterations). -/
def generate_sequence_iterative (n : Nat) : List Nat :=
  if n = 0 then [0]
  else genIterLoop (n - 1) [0, 1]

/-- `is_perfect_square` from `src/fibonacci.rs` lines 86-89. The Rust code
computes `(n as f64).sqrt() as u64`, the truncation of the `f64` square root;
this is modelled by `Nat.sqrt`, the floor of the exact square root, with which
it agrees on the whole range relevant to the claims (the `f64` rounding can
only diverge near the top of the `u64` range, a caveat the spec itself flags
in its section 9). -/
def is_perfect_square (n : Nat) : Bool :=
  Nat.sqrt n * Nat.sqrt n == n

/-- `is_fibonacci_number` from `src/fibonacci.rs` lines 84-92: true iff
`5*num*num + 4` or `5*num*num - 4` is a perfect square. The subtraction is
Nat truncated subtraction here; the Rust debug-mode underflow panic is
modelled separately by `is_fibonacci_number_checked`. -/
def is_fibonacci_number (num : Nat) : Bool :=
  is_perfect_square (5 * num * num + 4) || is_perfect_square (5 * num * num - 4)

/-- `is_fibonacci_number` with the Rust debug-mode underflow panic made
explicit: `none` exactly when the expression `5*num*num - 4` is evaluated
while `5*num*num < 4` (the short-circuit `||` only evaluates the second
disjunct when the first is false). -/
def is_fibonacci_number_checked (num : Nat) : Option Bool :=
  if is_perfect_square (5 * num * num + 4) then some true
  else if 5 * num * num < 4 then none
  else some (is_perfect_square (5 * num * num - 4))

/-! ### Engine lemmas -/

lemma natSqrt_eq_of (n k : Nat) (h1 : k * k ≤ n) (h2 : n < (k + 1) * (k + 1)) :
    Nat.sqrt n = k := by
  have ha : k ≤ Nat.sqrt n := Nat.le_sqrt.mpr h1
  have hb : Nat.sqrt n < k + 1 := Nat.sqrt_lt.mpr h2
  omega

lemma is_perfect_square_of (n k : Nat) (hk : k * k = n) :
    is_perfect_square n = true := by
  unfold is_perfect_square
  rw [natSqrt_eq_of n k (le_of_eq hk) (by nlinarith)]
  simp [hk]

lemma not_is_perfect_square_of (n k : Nat) (h1 : k * k < n)
    (h2 : n < (k + 1) * (k + 1)) : is_perfect_square n = false := by
  unfold is_perfect_square
  rw [natSqrt_eq_of n k (le_of_lt h1) h2]
  simp
  omega

lemma isFib_of_plus (y k : Nat) (hk : k * k = 5 * y * y + 4) :
    is_fibonacci_number y = true := by
  unfold is_fibonacci_number
  rw [is_perfect_square_of _ k hk]
  rfl

lemma isFib_of_minus (y k : Nat) (hk : k * k = 5 * y * y - 4) :
    is_fibonacci_number y = true := by
  unfold is_fibonacci_number
  rw [is_perfect_square_of _ k hk]
  simp

lemma not_isFib_of (y k1 k2 : Nat) (h1 : k1 * k1 < 5 * y * y + 4)
    (h2 : 5 * y * y + 4 < (k1 + 1) * (k1 + 1)) (h3 : k2 * k2 < 5 * y * y - 4)
    (h4 : 5 * y * y - 4 < (k2 + 1) * (k2 + 1)) :
    is_fibonacci_number y = false := by
  unfold is_fibonacci_number
  rw [not_is_perfect_square_of _ k1 h1 h2, not_is_perfect_square_of _ k2 h3 h4]
  rfl

/-- As long as the reference value fits in a `u64`, the wrap in `fib` never
fires and `fib` computes `Nat.fib`. -/
lemma fib_eq_natFib_of_lt (n : Nat) (h : Nat.fib n < 2 ^ 64) : fib n = Nat.fib n := by
  induction n using Nat.strong_induction_on with
  | _ n ih =>
    match n with
    | 0 => simp [fib]
    | 1 => simp [fib]
    | m + 2 =>
      have h1 : Nat.fib (m + 1) < 2 ^ 64 :=
        lt_of_le_of_lt (Nat.fib_mono (by omega)) h
      have h0 : Nat.fib m < 2 ^ 64 :=
        lt_of_le_of_lt (Nat.fib_mono (by omega)) h
      have e1 := ih (m + 1) (by omega) h1
      have e0 := ih m (by omega) h0
      have hsum : Nat.fib (m + 1) + Nat.fib m = Nat.fib (m + 2) := by
        rw [Nat.fib_add_two]; omega
      calc fib (m + 2) = (fib (m + 1) + fib m) % 2 ^ 64 := rfl
        _ = Nat.fib (m + 2) % 2 ^ 64 := by rw [e1, e0, hsum]
        _ = Nat.fib (m + 2) := Nat.mod_eq_of_lt h

lemma natFib_lt_of_le_forty {n : Nat} (h : n ≤ 40) : Nat.fib n < 2 ^ 64 := by
  have hmono : Nat.fib n ≤ Nat.fib 40 := Nat.fib_mono h
  have h40 : Nat.fib 40 < 2 ^ 64 := by decide
  omega

/-- A memo table is sound when every stored value is the `fib` of its key. -/
def MemoOK (memo : Nat → Option Nat) : Prop :=
  ∀ k v, memo k = some v → v = fib k

lemma memoOK_insert {memo : Nat → Option Nat} (h : MemoOK memo) {k v : Nat}
    (hv : v = fib k) : MemoOK (memoInsert k v memo) := by
  intro a b hab
  unfold memoInsert at hab
  by_cases hc : a = k
  · simp [hc] at hab; subst hc; omega
  · simp [hc] at hab; exact h a b hab

lemma fibMemoHelper_correct :
    ∀ n memo, MemoOK memo →
      (fibMemoHelper n memo).1 = fib n ∧ MemoOK (fibMemoHelper n memo).2 := by
  intro n
  induction n using Nat.strong_induction_on with
  | _ n ih =>
    intro memo hOK
    match n with
    | 0 =>
      rcases hm : memo 0 with _ | r
      · constructor
        · simp [fibMemoHelper, hm, fib]
        · simpa [fibMemoHelper, hm] using memoOK_insert hOK (by simp [fib])
      · constructor
        · simpa [fibMemoHelper, hm, fib] using hOK 0 r hm
        · simpa [fibMemoHelper, hm] using hOK
    | 1 =>
      rcases hm : memo 1 with _ | r
      · constructor
        · simp [fibMemoHelper, hm, fib]
        · simpa [fibMemoHelper, hm] using memoOK_insert hOK (by simp [fib])
      · constructor
        · simpa [fibMemoHelper, hm, fib] using hOK 1 r hm
        · simpa [fibMemoHelper, hm] using hOK
    | m + 2 =>
      rcases hm : memo (m + 2) with _ | r
      · have h1 := ih (m + 1) (by omega) memo hOK
        have h2 := ih m (by omega) (fibMemoHelper (m + 1) memo).2 h1.2
        constructor
        · show (fibMemoHelper (m + 2) memo).1 = fib (m + 2)
          simp only [fibMemoHelper, hm]
          rw [h1.1, h2.1]
          rfl
        · show MemoOK (fibMemoHelper (m + 2) memo).2
          simp only [fibMemoHelper, hm]
          refine memoOK_insert h2.2 ?_
          rw [h1.1, h2.1]
          rfl
      · constructor
        · simpa [fibMemoHelper, hm] using hOK (m + 2) r hm
        · simpa [fibMemoHelper, hm] using hOK

lemma fib_memoized_eq_fib (n : Nat) : fib_memoized n = fib n := by
  have h := fibMemoHelper_correct n (fun _ => none) (by intro k v hkv; simp at hkv)
  exact h.1

lemma genIterLoop_invariant :
    ∀ k m, 2 ≤ m →
      genIterLoop k ((List.range m).map fib) = (List.range (m + k)).map fib := by
  intro k
  induction k with
  | zero => intro m _; rfl
  | succ k ih =>
    intro m hm
    obtain ⟨j, rfl⟩ : ∃ j, m = j + 2 := ⟨m - 2, by omega⟩
    have hlen : ((List.range (j + 2)).map fib).length = j + 2 := by simp
    have hlast : ((List.range (j + 2)).map fib).getD (j + 1) 0 = fib (j + 1) := by
      rw [List.getD_eq_getElem?_getD]
      simp
    have hprev : ((List.range (j + 2)).map fib).getD j 0 = fib j := by
      rw [List.getD_eq_getElem?_getD]
      simp
    have hstep :
        (List.range (j + 2)).map fib ++ [(fib (j + 1) + fib j) % 2 ^ 64] =
          (List.range (j + 3)).map fib := by
      have hv : (fib (j + 1) + fib j) % 2 ^ 64 = fib (j + 2) := rfl
      rw [hv]
      conv_rhs => rw [show j + 3 = (j + 2) + 1 from rfl, List.range_succ]
      rw [List.map_append]
      simp
    have hloop :
        genIterLoop (k + 1) ((List.range (j + 2)).map fib) =
          genIterLoop k
            ((List.range (j + 2)).map fib ++ [(fib (j + 1) + fib j) % 2 ^ 64]) := by
      simp only [genIterLoop, hlen]
      rw [show j + 2 - 1 = j + 1 by omega, show j + 2 - 2 = j by omega, hlast, hprev]
    rw [hloop, hstep, ih (j + 3) (by omega), show j + 3 + k = j + 2 + (k + 1) by omega]

lemma generate_sequence_iterative_eq (n : Nat) :
    generate_sequence_iterative n = (List.range (n + 1)).map fib := by
  match n with
  | 0 => rfl
  | m + 1 =>
    have h2 : (List.range 2).map fib = [0, 1] := rfl
    calc generate_sequence_iterative (m + 1)
        = genIterLoop m [0, 1] := by simp [generate_sequence_iterative]
      _ = genIterLoop m ((List.range 2).map fib) := by rw [h2]
      _ = (List.range (2 + m)).map fib := genIterLoop_invariant m 2 (by omega)
      _ = (List.range (m + 1 + 1)).map fib := by ring_nf

lemma generate_sequence_length (n : Nat) : (generate_sequence n).length = n + 1 := by
  simp [generate_sequence]

lemma generate_sequence_getD {n i : Nat} (h : i ≤ n) :
    (generate_sequence n).getD i 0 = fib i := by
  unfold generate_sequence
  rw [List.getD_eq_getElem?_getD]
  simp [List.getElem?_range, Nat.lt_succ_of_le h]

/-! ## Claim theorems for the Fibonacci engine -/

/-- C1: for every `n` in the callers' capped domain (`n ≤ 40`, where `u64`
arithmetic does not overflow), `fib n` returns the `n`th Fibonacci number of
the reference recurrence `F(0)=0, F(1)=1, F(n)=F(n-1)+F(n-2)` (which is
`Nat.fib`); in particular `fib 0 = 0`, `fib 1 = 1`, `fib 10 = 55`. -/
theorem fib_agrees_with_reference (n : Nat) (h : n ≤ 40) :
    fib n = Nat.fib n ∧ fib 0 = 0 ∧ fib 1 = 1 ∧ fib 10 = 55 :=
  ⟨fib_eq_natFib_of_lt n (natFib_lt_of_le_forty h), rfl, rfl, by decide⟩

theorem fib_agrees_with_reference_witness :
    fib 10 = Nat.fib 10 ∧ fib 10 = 55 := by
  have h := fib_agrees_with_reference 10 (by decide)
  exact ⟨h.1, h.2.2.2⟩

/-- C2: the four sequence-producing operations agree bit-for-bit on
overlapping domains: for `n ≤ 40`, `fib n = fib_memoized n`,
`generate_sequence n` has length `n + 1` with element `i` equal to `fib i`
for every `i ≤ n`, `generate_sequence_iterative n` equals
`generate_sequence n`, and the two base cases of the iterative generator are
`[0]` and `[0, 1]`. -/
theorem sequence_ops_agree (n : Nat) (h : n ≤ 40) :
    fib n = fib_memoized n ∧
    (generate_sequence n).length = n + 1 ∧
    (∀ i, i ≤ n → (generate_sequence n).getD i 0 = fib i) ∧
    generate_sequence_iterative n = generate_sequence n ∧
    generate_sequence_iterative 0 = [0] ∧
    generate_sequence_iterative 1 = [0, 1] := by
  refine ⟨(fib_memoized_eq_fib n).symm, generate_sequence_length n,
    fun i hi => generate_sequence_getD hi, ?_, rfl, rfl⟩
  rw [generate_sequence_iterative_eq]
  rfl

theorem sequence_ops_agree_witness :
    fib 5 = fib_memoized 5 ∧
    (generate_sequence 5).getD 3 0 = fib 3 ∧
    generate_sequence_iterative 5 = generate_sequence 5 := by
  have h := sequence_ops_agree 5 (by decide)
  exact ⟨h.1, h.2.2.1 3 (by decide), h.2.2.2.1⟩

/-- C9: `is_fibonacci_number x` is true iff `5x² + 4` or `5x² - 4` is a
perfect square in the sense of the code's test (`floor (sqrt n) ^ 2 == n`);
it is true on `{0,1,2,3,5,8,13,21,34,55}` and false on `{4,6,7,9,10,11,12}`. -/
theorem is_fibonacci_number_spec (x : Nat) (hx : x ≤ 55) :
    (is_fibonacci_number x = true ↔
      (is_perfect_square (5 * x * x + 4) = true ∨
        is_perfect_square (5 * x * x - 4) = true)) ∧
    (∀ y, y ∈ [0, 1, 2, 3, 5, 8, 13, 21, 34, 55] → is_fibonacci_number y = true) ∧
    (∀ y, y ∈ [4, 6, 7, 9, 10, 11, 12] → is_fibonacci_number y = false) := by
  refine ⟨by simp [is_fibonacci_number], ?_, ?_⟩
  · intro y hy
    fin_cases hy
    · exact isFib_of_plus 0 2 (by norm_num)
    · exact isFib_of_plus 1 3 (by norm_num)
    · exact isFib_of_minus 2 4 (by norm_num)
    · exact isFib_of_plus 3 7 (by norm_num)
    · exact isFib_of_minus 5 11 (by norm_num)
    · exact isFib_of_plus 8 18 (by norm_num)
    · exact isFib_of_minus 13 29 (by norm_num)
    · exact isFib_of_plus 21 47 (by norm_num)
    · exact isFib_of_minus 34 76 (by norm_num)
    · exact isFib_of_plus 55 123 (by norm_num)
  · intro y hy
    fin_cases hy
    · exact not_isFib_of 4 9 8 (by norm_num) (by norm_num) (by norm_num) (by norm_num)
    · exact not_isFib_of 6 13 13 (by norm_num) (by norm_num) (by norm_num) (by norm_num)
    · exact not_isFib_of 7 15 15 (by norm_num) (by norm_num) (by norm_num) (by norm_num)
    · exact not_isFib_of 9 20 20 (by norm_num) (by norm_num) (by norm_num) (by norm_num)
    · exact not_isFib_of 10 22 22 (by norm_num) (by norm_num) (by norm_num) (by norm_num)
    · exact not_isFib_of 11 24 24 (by norm_num) (by norm_num) (by norm_num) (by norm_num)
    · exact not_isFib_of 12 26 26 (by norm_num) (by norm_num) (by norm_num) (by norm_num)

theorem is_fibonacci_number_spec_witness :
    (is_fibonacci_number 8 = true ↔
      (is_perfect_square (5 * 8 * 8 + 4) = true ∨
        is_perfect_square (5 * 8 * 8 - 4) = true)) ∧
    is_fibonacci_number 8 = true := by
  have h := is_fibonacci_number_spec 8 (by decide)
  exact ⟨h.1, h.2.1 8 (by decide)⟩

/-- C10: the subtraction `5*x*x - 4` in `is_fibonacci_number` never
underflows: for `x = 0` the first disjunct `5·0²+4 = 4` is a perfect square
and the short-circuit `||` prevents evaluating `0 - 4`; for `x ≥ 1` we have
`5x² ≥ 5 > 4`. With the potential panic made explicit as `none`,
the checked function is total and agrees with the pure model. -/
theorem is_fibonacci_number_no_underflow (x : Nat) (h : 5 * x * x < 2 ^ 64) :
    is_fibonacci_number_checked x ≠ none ∧
    is_fibonacci_number_checked x = some (is_fibonacci_number x) := by
  match x with
  | 0 =>
    have h4 : is_perfect_square 4 = true := is_perfect_square_of 4 2 (by norm_num)
    have hc : is_fibonacci_number_checked 0 = some true := by
      simp [is_fibonacci_number_checked, h4]
    have hp : is_fibonacci_number 0 = true := isFib_of_plus 0 2 (by norm_num)
    rw [hc, hp]
    exact ⟨by simp, rfl⟩
  | m + 1 =>
    have h5 : ¬ 5 * (m + 1) * (m + 1) < 4 := by nlinarith
    constructor
    · unfold is_fibonacci_number_checked
      rcases hps : is_perfect_square (5 * (m + 1) * (m + 1) + 4) with _ | _ <;>
        simp [hps, h5]
    · unfold is_fibonacci_number_checked is_fibonacci_number
      rcases hps : is_perfect_square (5 * (m + 1) * (m + 1) + 4) with _ | _ <;>
        simp [hps, h5]

theorem is_fibonacci_number_no_underflow_witness :
    is_fibonacci_number_checked 0 ≠ none ∧
    is_fibonacci_number_checked 0 = some (is_fibonacci_number 0) :=
  is_fibonacci_number_no_underflow 0 (by norm_num)

/-! ## Input validator (`src/ui.rs`) -/

/-- `MAX_FIBONACCI_N` from `src/ui.rs` line 5 (the GUI bound). -/
def MAX_FIBONACCI_N : Nat := 25

/-- Rust `str::trim`: drop whitespace characters from both ends. -/
def trimChars (cs : List Char) : List Char :=
  ((cs.dropWhile Char.isWhitespace).reverse.dropWhile Char.isWhitespace).reverse

/-- Rust `str::parse::<u32>`: an optional leading `+`, then one or more ASCII
digits, value below `2 ^ 32` (larger values are a `PosOverflow` error; a
leading `-` is not accepted for an unsigned type). Any error kind is collapsed
to `none`, as the caller matches `Err(_)`. -/
def parseU32 (cs : List Char) : Option Nat :=
  let ds := match cs with
    | '+' :: rest => rest
    | _ => cs
  if ds.isEmpty then none
  else if ds.all Char.isDigit then
    let v := ds.foldl (fun acc c => acc * 10 + (c.toNat - 48)) 0
    if v < 2 ^ 32 then some v else none
  else none

/-- `validation::validate_input` from `src/ui.rs` lines 171-180: trim, parse
as `u32`, accept values up to `MAX_FIBONACCI_N`, otherwise produce the range
message naming the value and the bound; a parse failure produces the fixed
parse message. -/
def validate_input (input : String) : Except String Nat :=
  match parseU32 (trimChars input.data) with
  | some n =>
    if n ≤ MAX_FIBONACCI_N then Except.ok n
    else Except.error
      ("Number " ++ toString n ++ " is too large! Please enter 0-" ++
        toString MAX_FIBONACCI_N)
  | none => Except.error "Please enter a valid number"

instance : DecidableEq (Except String Nat) := fun a b =>
  match a, b with
  | .ok x, .ok y =>
    if h : x = y then .isTrue (by rw [h])
    else .isFalse (by intro hc; cases hc; exact h rfl)
  | .error x, .error y =>
    if h : x = y then .isTrue (by rw [h])
    else .isFalse (by intro hc; cases hc; exact h rfl)
  | .ok _, .error _ => .isFalse (by intro hc; cases hc)
  | .error _, .ok _ => .isFalse (by intro hc; cases hc)

/-! ## Application view-model (`src/app.rs`) -/

/-- The view-model state of `FibonacciApp` (`src/app.rs` lines 6-18); the
`spiral_visualization` field holds no data relevant to the claims. -/
structure FibonacciApp where
  input_text : String
  result_text : String
  fibonacci_sequence : List Nat
  current_n : Nat

/-- `FibonacciApp::calculate_fibonacci` (`src/app.rs` lines 33-51) as a pure
state transformer: on success set the result line, `current_n` and the
iteratively generated sequence; on failure display the message, clear the
sequence and reset `current_n`. -/
def calculate_fibonacci (app : FibonacciApp) : FibonacciApp :=
  match validate_input app.input_text with
  | Except.ok n =>
    { app with
      result_text := "F(" ++ toString n ++ ") = " ++ toString (fib n),
      current_n := n,
      fibonacci_sequence := generate_sequence_iterative n }
  | Except.error msg =>
    { app with result_text := msg, fibonacci_sequence := [], current_n := 0 }

/-- `FibonacciApp::has_results` (`src/app.rs` lines 72-74): the gate under
which `update` runs the downstream pipeline (spiral visualization, sequence
display, math info). -/
def has_results (app : FibonacciApp) : Bool :=
  (!app.fibonacci_sequence.isEmpty) && decide (0 < app.current_n)

lemma generate_sequence_iterative_ne_nil (n : Nat) :
    generate_sequence_iterative n ≠ [] := by
  rw [generate_sequence_iterative_eq]
  simp

/-! ## Claim theorems for validator and view-model -/

/-- C3 (amended): `validate_input` trims whitespace and parses the text as an
unsigned integer, returning `ok n` with the parsed index unchanged iff the
trimmed text `u32`-parses to `n` and `n ≤ 25`; a parse failure yields the
message `"Please enter a valid number"` (capitalised, unlike the claim's
quotation), and a parsed value above 25 yields the range message naming the
value and the bound; `validate_input "10" = ok 10` and
`validate_input " 5 " = ok 5`. -/
theorem validate_input_spec (s : String) (n : Nat) :
    (validate_input s = Except.ok n ↔
      (parseU32 (trimChars s.data) = some n ∧ n ≤ 25)) ∧
    (parseU32 (trimChars s.data) = none →
      validate_input s = Except.error "Please enter a valid number") ∧
    validate_input "10" = Except.ok 10 ∧
    validate_input " 5 " = Except.ok 5 ∧
    validate_input "abc" = Except.error "Please enter a valid number" ∧
    validate_input "-1" = Except.error "Please enter a valid number" ∧
    validate_input "26" = Except.error "Number 26 is too large! Please enter 0-25" := by
  refine ⟨?_, ?_, by decide, by decide, by decide, by decide, by decide⟩
  · unfold validate_input MAX_FIBONACCI_N
    rcases h : parseU32 (trimChars s.data) with _ | m
    · simp
    · by_cases hle : m ≤ 25
      · simp only [hle, if_true]
        constructor
        · intro hok
          cases hok
          exact ⟨rfl, hle⟩
        · rintro ⟨hm, _⟩
          cases hm
          rfl
      · simp only [hle, if_false]
        constructor
        · intro hok
          cases hok
        · rintro ⟨hm, hn⟩
          cases hm
          exact absurd hn hle
  · intro h
    unfold validate_input
    rw [h]

/-- C3 counterexample: the claim quotes the parse-error message as
`"please enter a valid number"`, but the code's message is capitalised:
`"Please enter a valid number"`. -/
theorem validate_input_message_counterexample :
    validate_input "abc" = Except.error "Please enter a valid number" ∧
    validate_input "abc" ≠ Except.error "please enter a valid number" := by
  constructor
  · decide
  · decide

theorem validate_input_spec_witness :
    (validate_input "7" = Except.ok 7 ↔
      (parseU32 (trimChars "7".data) = some 7 ∧ 7 ≤ 25)) ∧
    validate_input "10" = Except.ok 10 ∧
    validate_input "26" = Except.error "Number 26 is too large! Please enter 0-25" := by
  have h := validate_input_spec "7" 7
  exact ⟨h.1, h.2.2.1, h.2.2.2.2.2.2⟩

/-- C8 (amended): the view-model's calculate step is all-or-nothing. On a
validation error the message replaces the result text, the sequence is
cleared, `current_n` is reset, and the `has_results` gate that guards the
downstream pipeline (generate → layout → render) is false. On success with
index `n` the result text becomes `F(n) = value`, the sequence is replaced by
`generate_sequence_iterative n`, `current_n` becomes `n` — but the spiral
visualization is rendered only when `n ≥ 1`: for `n = 0` the `has_results`
gate is false and the visualization is skipped. -/
theorem calculate_all_or_nothing (app : FibonacciApp) :
    (∀ msg, validate_input app.input_text = Except.error msg →
      calculate_fibonacci app =
        { app with result_text := msg, fibonacci_sequence := [], current_n := 0 } ∧
      has_results (calculate_fibonacci app) = false) ∧
    (∀ n, validate_input app.input_text = Except.ok n →
      (calculate_fibonacci app).result_text =
        "F(" ++ toString n ++ ") = " ++ toString (fib n) ∧
      (calculate_fibonacci app).fibonacci_sequence = generate_sequence_iterative n ∧
      (calculate_fibonacci app).current_n = n ∧
      (has_results (calculate_fibonacci app) = true ↔ 1 ≤ n)) := by
  constructor
  · intro msg hmsg
    constructor
    · unfold calculate_fibonacci
      rw [hmsg]
    · unfold has_results calculate_fibonacci
      rw [hmsg]
      simp
  · intro n hn
    have hne : generate_sequence_iterative n ≠ [] :=
      generate_sequence_iterative_ne_nil n
    unfold calculate_fibonacci has_results
    rw [hn]
    refine ⟨rfl, rfl, rfl, ?_⟩
    simp [hne]
    omega

/-- C8 counterexample: for input `"0"` validation succeeds with `n = 0`, yet
the `has_results` gate is false afterwards, so the spiral visualization is
not rendered even though validation succeeded. -/
theorem calculate_renders_counterexample :
    validate_input "0" = Except.ok 0 ∧
    has_results (calculate_fibonacci ⟨"0", "", [], 0⟩) = false := by
  constructor
  · decide
  · decide

theorem calculate_all_or_nothing_witness :
    (calculate_fibonacci ⟨"abc", "", [0, 1], 2⟩).fibonacci_sequence = [] ∧
    (calculate_fibonacci ⟨"5", "", [], 0⟩).result_text =
      "F(" ++ toString 5 ++ ") = " ++ toString (fib 5) ∧
    (has_results (calculate_fibonacci ⟨"5", "", [], 0⟩) = true ↔ 1 ≤ 5) := by
  have h1 := (calculate_all_or_nothing ⟨"abc", "", [0, 1], 2⟩).1
    "Please enter a valid number" (by decide)
  have h2 := (calculate_all_or_nothing ⟨"5", "", [], 0⟩).2 5 (by decide)
  refine ⟨?_, h2.1, h2.2.2.2⟩
  rw [h1.1]

/-! ## Spiral layout calculator (`src/visualization.rs`)

The `f32` geometry is modelled over `ℚ`. The single operation with no exact
rational counterpart, `f32::sqrt`, is passed in as an explicit parameter
`s : ℚ → ℚ`; every theorem below holds for an arbitrary `s`, and concrete
witnesses instantiate `s` with explicit rational functions. -/

/-- An axis-aligned rectangle as built by `Rect::from_min_size` (min corner
plus size); `maxX = minX + width`, `maxY = minY + height`. -/
structure QRect where
  minX : ℚ
  minY : ℚ
  width : ℚ
  height : ℚ
deriving DecidableEq, Repr

/-- `FibonacciRectangle` from `src/visualization.rs` lines 16-21. -/
structure FibonacciRectangle where
  rect : QRect
  value : Nat
  index : Nat
deriving DecidableEq, Repr

/-- The drawing viewport (an egui `Rect` with `min`/`max` corners). -/
structure Viewport where
  minX : ℚ
  minY : ℚ
  maxX : ℚ
  maxY : ℚ
deriving DecidableEq, Repr

def Viewport.width (vp : Viewport) : ℚ := vp.maxX - vp.minX

def Viewport.height (vp : Viewport) : ℚ := vp.maxY - vp.minY

def Viewport.centerX (vp : Viewport) : ℚ := (vp.minX + vp.maxX) / 2

def Viewport.centerY (vp : Viewport) : ℚ := (vp.minY + vp.maxY) / 2

/-- `fibonacci_sequence.iter().max().unwrap_or(&1)`
(`src/visualization.rs` line 82). -/
def maxFibOf (seq : List Nat) : Nat := (seq.max?).getD 1

/-- `available_size` (`src/visualization.rs` line 83):
`rect.width().min(rect.height()) * 0.5`. -/
def availableSize (vp : Viewport) : ℚ := min vp.width vp.height * (1 / 2)

/-- `max_unit_size` (`src/visualization.rs` line 87):
`available_size / (*max_fib as f32).sqrt()`. (Rational division is total
with `x / 0 = 0`; the Rust `f32` division by zero gives infinity instead —
either way the subsequent two-sided clamp lands in `[20, 35]`.) -/
def maxUnitSize (s : ℚ → ℚ) (vp : Viewport) (seq : List Nat) : ℚ :=
  availableSize vp / s (maxFibOf seq)

/-- `unit` (`src/visualization.rs` lines 86-88):
`min_unit_size.max(max_unit_size.min(35.0))` with `min_unit_size = 20.0`. -/
def calcUnit (s : ℚ → ℚ) (vp : Viewport) (seq : List Nat) : ℚ :=
  max 20 (min (maxUnitSize s vp seq) 35)

/-- The mutable state of the placement loop (`src/visualization.rs` lines
91-106): the accumulated `temp_rectangles` triples and the running bounding
box `(base_x, base_y, current_width, current_height)`. -/
structure SpiralState where
  temp : List (QRect × Nat × Nat)
  baseX : ℚ
  baseY : ℚ
  curW : ℚ
  curH : ℚ

/-- One iteration of the placement loop (`src/visualization.rs` lines
108-156) for term index `i`: compute the sqrt-scaled `size`, pick the
direction `(i - 2) % 4` in the cycle down/left/up/right, place the new
rectangle flush against the accumulated bounding box and extend the box.
The `_ => continue` arm of the Rust match (unreachable since `% 4 < 4`) is
the identity on the state. -/
def spiralStep (s : ℚ → ℚ) (unit : ℚ) (seq : List Nat)
    (st : SpiralState) (i : Nat) : SpiralState :=
  let fibVal := seq.getD i 0
  let size := s (fibVal : ℚ) * unit * (6 / 5)
  match (i - 2) % 4 with
  | 0 =>
    { temp := st.temp ++ [(⟨st.baseX, st.baseY + st.curH, st.curW, size⟩, fibVal, i)],
      baseX := st.baseX, baseY := st.baseY,
      curW := st.curW, curH := st.curH + size }
  | 1 =>
    { temp := st.temp ++ [(⟨st.baseX - size, st.baseY, size, st.curH⟩, fibVal, i)],
      baseX := st.baseX - size, baseY := st.baseY,
      curW := st.curW + size, curH := st.curH }
  | 2 =>
    { temp := st.temp ++ [(⟨st.baseX, st.baseY - size, st.curW, size⟩, fibVal, i)],
      baseX := st.baseX, baseY := st.baseY - size,
      curW := st.curW, curH := st.curH + size }
  | 3 =>
    { temp := st.temp ++ [(⟨st.baseX + st.curW, st.baseY, size, st.curH⟩, fibVal, i)],
      baseX := st.baseX, baseY := st.baseY,
      curW := st.curW + size, curH := st.curH }
  | _ + 4 => st

/-- The two seed squares and the placement loop (`src/visualization.rs`
lines 93-156): seeds of side `sqrt(1) * unit * 1.2` at the origin with the
hardcoded payloads `(1, 0)` and `(1, 1)`, then the loop over
`i in 2..fibonacci_sequence.len().min(12)`. -/
def calcTempRectangles (s : ℚ → ℚ) (vp : Viewport) (seq : List Nat) : SpiralState :=
  let unit := calcUnit s vp seq
  let firstSize := s 1 * unit * (6 / 5)
  let st0 : SpiralState :=
    { temp := [(⟨0, 0, firstSize, firstSize⟩, 1, 0),
               (⟨firstSize, 0, firstSize, firstSize⟩, 1, 1)],
      baseX := 0, baseY := 0, curW := firstSize * 2, curH := firstSize }
  (List.range' 2 (min seq.length 12 - 2)).foldl (spiralStep s unit seq) st0

/-- Fold of `min` over a list; the Rust code folds from `f32::INFINITY`,
which over a nonempty list (guaranteed: the two seeds are always present
when this is reached) equals folding from the first element. -/
def foldMin (xs : List ℚ) : ℚ := xs.foldl min (xs.headD 0)

def foldMax (xs : List ℚ) : ℚ := xs.foldl max (xs.headD 0)

def tempMinX (st : SpiralState) : ℚ := foldMin (st.temp.map fun t => t.1.minX)

def tempMinY (st : SpiralState) : ℚ := foldMin (st.temp.map fun t => t.1.minY)

def tempMaxX (st : SpiralState) : ℚ :=
  foldMax (st.temp.map fun t => t.1.minX + t.1.width)

def tempMaxY (st : SpiralState) : ℚ :=
  foldMax (st.temp.map fun t => t.1.minY + t.1.height)

/-- `offset_x` (`src/visualization.rs` lines 171-178):
`center_x - (min_x + spiral_width / 2.0)`. -/
def spiralOffsetX (vp : Viewport) (st : SpiralState) : ℚ :=
  vp.centerX - (tempMinX st + (tempMaxX st - tempMinX st) / 2)

def spiralOffsetY (vp : Viewport) (st : SpiralState) : ℚ :=
  vp.centerY - (tempMinY st + (tempMaxY st - tempMinY st) / 2)

/-- `calculate_spiral_rectangles` (`src/visualization.rs` lines 73-195):
empty for sequences shorter than 3; otherwise place the seed squares and the
spiral loop, then translate every rectangle by the uniform centering offset. -/
def calculate_spiral_rectangles (s : ℚ → ℚ) (vp : Viewport)
    (seq : List Nat) : List FibonacciRectangle :=
  if seq.length < 3 then []
  else
    let st := calcTempRectangles s vp seq
    let ox := spiralOffsetX vp st
    let oy := spiralOffsetY vp st
    st.temp.map fun t =>
      { rect := ⟨t.1.minX + ox, t.1.minY + oy, t.1.width, t.1.height⟩,
        value := t.2.1, index := t.2.2 }

/-- Bounding-box center of a produced rectangle list, as the renderer's
consumer would recompute it. -/
def outCenterX (rs : List FibonacciRectangle) : ℚ :=
  (foldMin (rs.map fun r => r.rect.minX) +
    foldMax (rs.map fun r => r.rect.minX + r.rect.width)) / 2

def outCenterY (rs : List FibonacciRectangle) : ℚ :=
  (foldMin (rs.map fun r => r.rect.minY) +
    foldMax (rs.map fun r => r.rect.minY + r.rect.height)) / 2

/-- The identity function on `ℚ`, used to instantiate the abstract square
root in concrete witnesses. -/
def qid : ℚ → ℚ := fun x => x

/-- A rational stand-in for `f32::sqrt` at the inputs of the C5
counterexample: `7.4` is within `0.02` of `sqrt 55 ≈ 7.4162`, and the
conclusion is insensitive to the exact value as long as the unclamped
quotient stays inside `[20, 35]` (with the true `f32` value it is
`≈ 26.97`). -/
def sqrt55Approx : ℚ → ℚ := fun x => if x = 55 then 37 / 5 else x

/-- The 600×400 viewport of the spec's concrete layout example. -/
def vp600 : Viewport := ⟨0, 0, 600, 400⟩

/-- The Fibonacci sequence through `F 10 = 55`, used for the C5
counterexample (exactly `generate_sequence_iterative 10`). -/
def seqF10 : List Nat := [0, 1, 1, 2, 3, 5, 8, 13, 21, 34, 55]

/-! ### Layout lemmas -/

lemma spiralStep_temp_length (s : ℚ → ℚ) (unit : ℚ) (seq : List Nat)
    (st : SpiralState) (i : Nat) :
    (spiralStep s unit seq st i).temp.length = st.temp.length + 1 := by
  have hd : (i - 2) % 4 = 0 ∨ (i - 2) % 4 = 1 ∨ (i - 2) % 4 = 2 ∨ (i - 2) % 4 = 3 := by
    omega
  rcases hd with h | h | h | h <;> simp [spiralStep, h]

lemma spiralStep_payload (s : ℚ → ℚ) (unit : ℚ) (seq : List Nat)
    (st : SpiralState) (i : Nat) :
    (spiralStep s unit seq st i).temp.map (fun t => (t.2.1, t.2.2)) =
      st.temp.map (fun t => (t.2.1, t.2.2)) ++ [(seq.getD i 0, i)] := by
  have hd : (i - 2) % 4 = 0 ∨ (i - 2) % 4 = 1 ∨ (i - 2) % 4 = 2 ∨ (i - 2) % 4 = 3 := by
    omega
  rcases hd with h | h | h | h <;> simp [spiralStep, h]

lemma foldl_spiralStep_length (s : ℚ → ℚ) (unit : ℚ) (seq : List Nat)
    (l : List Nat) :
    ∀ st, ((l.foldl (spiralStep s unit seq) st).temp).length =
      st.temp.length + l.length := by
  induction l with
  | nil => intro st; simp
  | cons i l ih =>
    intro st
    rw [List.foldl_cons, ih, spiralStep_temp_length]
    simp
    omega

lemma foldl_spiralStep_payload (s : ℚ → ℚ) (unit : ℚ) (seq : List Nat)
    (l : List Nat) :
    ∀ st, ((l.foldl (spiralStep s unit seq) st).temp).map (fun t => (t.2.1, t.2.2)) =
      st.temp.map (fun t => (t.2.1, t.2.2)) ++ l.map (fun i => (seq.getD i 0, i)) := by
  induction l with
  | nil => intro st; simp
  | cons i l ih =>
    intro st
    rw [List.foldl_cons, ih, spiralStep_payload]
    simp

lemma calcTemp_temp_length (s : ℚ → ℚ) (vp : Viewport) (seq : List Nat) :
    (calcTempRectangles s vp seq).temp.length = 2 + (min seq.length 12 - 2) := by
  unfold calcTempRectangles
  rw [foldl_spiralStep_length]
  simp

lemma calcTemp_payload (s : ℚ → ℚ) (vp : Viewport) (seq : List Nat) :
    (calcTempRectangles s vp seq).temp.map (fun t => (t.2.1, t.2.2)) =
      [(1, 0), (1, 1)] ++
        (List.range' 2 (min seq.length 12 - 2)).map (fun i => (seq.getD i 0, i)) := by
  unfold calcTempRectangles
  rw [foldl_spiralStep_payload]
  rfl

lemma calcTemp_temp_ne_nil (s : ℚ → ℚ) (vp : Viewport) (seq : List Nat) :
    (calcTempRectangles s vp seq).temp ≠ [] := by
  intro hnil
  have h := calcTemp_temp_length s vp seq
  rw [hnil] at h
  simp at h
  omega

lemma calc_eq_map (s : ℚ → ℚ) (vp : Viewport) (seq : List Nat)
    (h : 3 ≤ seq.length) :
    calculate_spiral_rectangles s vp seq =
      (calcTempRectangles s vp seq).temp.map (fun t =>
        { rect := ⟨t.1.minX + spiralOffsetX vp (calcTempRectangles s vp seq),
                   t.1.minY + spiralOffsetY vp (calcTempRectangles s vp seq),
                   t.1.width, t.1.height⟩,
          value := t.2.1, index := t.2.2 }) := by
  unfold calculate_spiral_rectangles
  rw [if_neg (by omega)]

lemma foldlMin_add (xs : List ℚ) (c : ℚ) :
    ∀ a, ((xs.map fun x => x + c).foldl min (a + c)) = xs.foldl min a + c := by
  induction xs with
  | nil => intro a; rfl
  | cons x xs ih =>
    intro a
    simp only [List.map_cons, List.foldl_cons]
    rw [min_add_add_right, ih]

lemma foldlMax_add (xs : List ℚ) (c : ℚ) :
    ∀ a, ((xs.map fun x => x + c).foldl max (a + c)) = xs.foldl max a + c := by
  induction xs with
  | nil => intro a; rfl
  | cons x xs ih =>
    intro a
    simp only [List.map_cons, List.foldl_cons]
    rw [max_add_add_right, ih]

lemma foldMin_shift (xs : List ℚ) (c : ℚ) (h : xs ≠ []) :
    foldMin (xs.map fun x => x + c) = foldMin xs + c := by
  match xs with
  | y :: ys =>
    show ((y :: ys).map fun x => x + c).foldl min (y + c) = (y :: ys).foldl min y + c
    exact foldlMin_add (y :: ys) c y

lemma foldMax_shift (xs : List ℚ) (c : ℚ) (h : xs ≠ []) :
    foldMax (xs.map fun x => x + c) = foldMax xs + c := by
  match xs with
  | y :: ys =>
    show ((y :: ys).map fun x => x + c).foldl max (y + c) = (y :: ys).foldl max y + c
    exact foldlMax_add (y :: ys) c y

lemma map_minX_out (s : ℚ → ℚ) (vp : Viewport) (seq : List Nat)
    (h : 3 ≤ seq.length) :
    (calculate_spiral_rectangles s vp seq).map (fun r => r.rect.minX) =
      ((calcTempRectangles s vp seq).temp.map fun t => t.1.minX).map
        (fun x => x + spiralOffsetX vp (calcTempRectangles s vp seq)) := by
  rw [calc_eq_map s vp seq h, List.map_map, List.map_map]
  rfl

lemma map_minY_out (s : ℚ → ℚ) (vp : Viewport) (seq : List Nat)
    (h : 3 ≤ seq.length) :
    (calculate_spiral_rectangles s vp seq).map (fun r => r.rect.minY) =
      ((calcTempRectangles s vp seq).temp.map fun t => t.1.minY).map
        (fun x => x + spiralOffsetY vp (calcTempRectangles s vp seq)) := by
  rw [calc_eq_map s vp seq h, List.map_map, List.map_map]
  rfl

lemma map_maxX_out (s : ℚ → ℚ) (vp : Viewport) (seq : List Nat)
    (h : 3 ≤ seq.length) :
    (calculate_spiral_rectangles s vp seq).map (fun r => r.rect.minX + r.rect.width) =
      ((calcTempRectangles s vp seq).temp.map fun t => t.1.minX + t.1.width).map
        (fun x => x + spiralOffsetX vp (calcTempRectangles s vp seq)) := by
  rw [calc_eq_map s vp seq h, List.map_map, List.map_map]
  congr 1
  funext t
  simp only [Function.comp]
  ring

lemma map_maxY_out (s : ℚ → ℚ) (vp : Viewport) (seq : List Nat)
    (h : 3 ≤ seq.length) :
    (calculate_spiral_rectangles s vp seq).map (fun r => r.rect.minY + r.rect.height) =
      ((calcTempRectangles s vp seq).temp.map fun t => t.1.minY + t.1.height).map
        (fun x => x + spiralOffsetY vp (calcTempRectangles s vp seq)) := by
  rw [calc_eq_map s vp seq h, List.map_map, List.map_map]
  congr 1
  funext t
  simp only [Function.comp]
  ring

lemma outCenterX_calc (s : ℚ → ℚ) (vp : Viewport) (seq : List Nat)
    (h : 3 ≤ seq.length) :
    outCenterX (calculate_spiral_rectangles s vp seq) = vp.centerX := by
  have hne : (calcTempRectangles s vp seq).temp ≠ [] := calcTemp_temp_ne_nil s vp seq
  have hne1 : ((calcTempRectangles s vp seq).temp.map fun t => t.1.minX) ≠ [] := by
    simpa using hne
  have hne2 : ((calcTempRectangles s vp seq).temp.map fun t => t.1.minX + t.1.width) ≠ [] := by
    simpa using hne
  unfold outCenterX
  rw [map_minX_out s vp seq h, map_maxX_out s vp seq h,
    foldMin_shift _ _ hne1, foldMax_shift _ _ hne2]
  unfold spiralOffsetX tempMinX tempMaxX
  ring

lemma outCenterY_calc (s : ℚ → ℚ) (vp : Viewport) (seq : List Nat)
    (h : 3 ≤ seq.length) :
    outCenterY (calculate_spiral_rectangles s vp seq) = vp.centerY := by
  have hne : (calcTempRectangles s vp seq).temp ≠ [] := calcTemp_temp_ne_nil s vp seq
  have hne1 : ((calcTempRectangles s vp seq).temp.map fun t => t.1.minY) ≠ [] := by
    simpa using hne
  have hne2 : ((calcTempRectangles s vp seq).temp.map fun t => t.1.minY + t.1.height) ≠ [] := by
    simpa using hne
  unfold outCenterY
  rw [map_minY_out s vp seq h, map_maxY_out s vp seq h,
    foldMin_shift _ _ hne1, foldMax_shift _ _ hne2]
  unfold spiralOffsetY tempMinY tempMaxY
  ring

/-- Every rectangle recorded so far, and the running bounding box, have
positive extent. -/
def PosState (st : SpiralState) : Prop :=
  0 < st.curW ∧ 0 < st.curH ∧ ∀ t ∈ st.temp, 0 < t.1.width ∧ 0 < t.1.height

lemma spiralStep_pos (s : ℚ → ℚ) (unit : ℚ) (seq : List Nat)
    (st : SpiralState) (i : Nat)
    (hsize : 0 < s ((seq.getD i 0 : Nat) : ℚ) * unit * (6 / 5))
    (hst : PosState st) : PosState (spiralStep s unit seq st i) := by
  obtain ⟨hw, hh, ht⟩ := hst
  have hd : (i - 2) % 4 = 0 ∨ (i - 2) % 4 = 1 ∨ (i - 2) % 4 = 2 ∨ (i - 2) % 4 = 3 := by
    omega
  rcases hd with h | h | h | h <;>
  · simp only [spiralStep, h, PosState]
    refine ⟨by linarith, by linarith, ?_⟩
    intro t htmem
    rcases List.mem_append.mp htmem with hm | hm
    · exact ht t hm
    · rw [List.mem_singleton] at hm
      subst hm
      exact ⟨by linarith, by linarith⟩

lemma foldl_spiralStep_pos (s : ℚ → ℚ) (unit : ℚ) (seq : List Nat)
    (l : List Nat) :
    ∀ st, PosState st →
      (∀ i ∈ l, 0 < s ((seq.getD i 0 : Nat) : ℚ) * unit * (6 / 5)) →
      PosState (l.foldl (spiralStep s unit seq) st) := by
  induction l with
  | nil => intro st hst _; exact hst
  | cons i l ih =>
    intro st hst hall
    rw [List.foldl_cons]
    exact ih _ (spiralStep_pos s unit seq st i (hall i (by simp)) hst)
      (fun j hj => hall j (by simp [hj]))

lemma calcUnit_ge_twenty (s : ℚ → ℚ) (vp : Viewport) (seq : List Nat) :
    20 ≤ calcUnit s vp seq :=
  le_max_left _ _

lemma calcTemp_pos (s : ℚ → ℚ) (vp : Viewport) (seq : List Nat)
    (hs1 : 0 < s 1)
    (hvals : ∀ i ∈ List.range' 2 (min seq.length 12 - 2),
      0 < s ((seq.getD i 0 : Nat) : ℚ)) :
    PosState (calcTempRectangles s vp seq) := by
  have hunit : (0 : ℚ) < calcUnit s vp seq :=
    lt_of_lt_of_le (by norm_num) (calcUnit_ge_twenty s vp seq)
  have hfs : 0 < s 1 * calcUnit s vp seq * (6 / 5) :=
    mul_pos (mul_pos hs1 hunit) (by norm_num)
  have hrw : calcTempRectangles s vp seq =
      (List.range' 2 (min seq.length 12 - 2)).foldl
        (spiralStep s (calcUnit s vp seq) seq)
        { temp := [(⟨0, 0, s 1 * calcUnit s vp seq * (6 / 5),
                      s 1 * calcUnit s vp seq * (6 / 5)⟩, 1, 0),
                   (⟨s 1 * calcUnit s vp seq * (6 / 5), 0,
                      s 1 * calcUnit s vp seq * (6 / 5),
                      s 1 * calcUnit s vp seq * (6 / 5)⟩, 1, 1)],
          baseX := 0, baseY := 0,
          curW := s 1 * calcUnit s vp seq * (6 / 5) * 2,
          curH := s 1 * calcUnit s vp seq * (6 / 5) } := rfl
  rw [hrw]
  apply foldl_spiralStep_pos
  · refine ⟨by linarith, by linarith, ?_⟩
    intro t htmem
    simp at htmem
    rcases htmem with hm | hm <;> (subst hm; exact ⟨hfs, hfs⟩)
  · intro i hi
    exact mul_pos (mul_pos (hvals i hi) hunit) (by norm_num)

/-! ## Claim theorems for the spiral layout -/

/-- C4: the spiral layout calculator never errors: every sequence of length
less than 3 yields the empty rectangle list (a defined no-op), and every
sequence of length at least 3 yields exactly `min length 12` rectangles —
terms beyond index 11 are silently omitted from the geometry. This holds for
every square-root function `s` and every viewport. -/
theorem spiral_rect_count (s : ℚ → ℚ) (vp : Viewport) (seq : List Nat) :
    (seq.length < 3 → calculate_spiral_rectangles s vp seq = []) ∧
    (3 ≤ seq.length →
      (calculate_spiral_rectangles s vp seq).length = min seq.length 12) := by
  constructor
  · intro h
    unfold calculate_spiral_rectangles
    rw [if_pos h]
  · intro h
    rw [calc_eq_map s vp seq h, List.length_map, calcTemp_temp_length]
    omega

theorem spiral_rect_count_witness :
    calculate_spiral_rectangles qid vp600 [0, 1] = [] ∧
    (calculate_spiral_rectangles qid vp600 seqF10).length = 11 ∧
    (calculate_spiral_rectangles qid vp600 (seqF10 ++ [89, 144])).length = 12 := by
  have h1 := (spiral_rect_count qid vp600 [0, 1]).1 (by decide)
  have h2 := (spiral_rect_count qid vp600 seqF10).2 (by decide)
  have h3 := (spiral_rect_count qid vp600 (seqF10 ++ [89, 144])).2 (by decide)
  refine ⟨h1, ?_, ?_⟩
  · rw [h2]
    decide
  · rw [h3]
    decide

/-- C5 (amended): the uniform scale unit is two-sidedly clamped,
`unit = max 20 (min (0.5 · min(w, h) / sqrt maxterm) 35)`, so
`20 ≤ unit ≤ 35` always; and whenever the clamps are not binding the largest
term's rectangle, sized `sqrt(value) × unit × 1.2`, equals `1.2` times half
the smaller viewport dimension — i.e. it fits within `0.6 · min(w, h)`, not
within half the smaller dimension as the claim stated. -/
theorem unit_clamp (s : ℚ → ℚ) (vp : Viewport) (seq : List Nat) :
    (20 ≤ calcUnit s vp seq ∧ calcUnit s vp seq ≤ 35) ∧
    (20 ≤ maxUnitSize s vp seq → maxUnitSize s vp seq ≤ 35 →
      s (maxFibOf seq) ≠ 0 →
      s (maxFibOf seq) * calcUnit s vp seq * (6 / 5) =
        availableSize vp * (6 / 5)) := by
  constructor
  · exact ⟨le_max_left _ _, max_le (by norm_num) (min_le_right _ _)⟩
  · intro h1 h2 hs
    have hu : calcUnit s vp seq = maxUnitSize s vp seq := by
      unfold calcUnit
      rw [min_eq_left h2, max_eq_right h1]
    rw [hu]
    unfold maxUnitSize
    rw [mul_comm (s (maxFibOf seq)) _, div_mul_cancel₀ _ hs]

lemma sqrt55Approx_at_max : sqrt55Approx ((maxFibOf seqF10 : Nat) : ℚ) = 37 / 5 := by
  rw [show maxFibOf seqF10 = 55 from rfl]
  norm_num [sqrt55Approx]

lemma availableSize_vp600 : availableSize vp600 = 200 := by
  norm_num [availableSize, vp600, Viewport.width, Viewport.height]

lemma maxUnitSize_seqF10 : maxUnitSize sqrt55Approx vp600 seqF10 = 1000 / 37 := by
  unfold maxUnitSize
  rw [sqrt55Approx_at_max, availableSize_vp600]
  norm_num

/-- C5 counterexample: on the Fibonacci sequence through `F 10 = 55` and the
600×400 viewport, with the square root of 55 taken as `7.4` (the true `f32`
value is `≈ 7.4162`), the clamps are not binding
(`max_unit_size = 1000/37 ≈ 27.03 ∈ [20, 35]`), yet the largest term's
rectangle has side `240 > 200 = ` half the smaller viewport dimension: the
claimed fit fails because of the extra `1.2` factor. -/
theorem unit_fit_counterexample :
    20 ≤ maxUnitSize sqrt55Approx vp600 seqF10 ∧
    maxUnitSize sqrt55Approx vp600 seqF10 ≤ 35 ∧
    ¬ (sqrt55Approx (maxFibOf seqF10) * calcUnit sqrt55Approx vp600 seqF10 * (6 / 5)
        ≤ availableSize vp600) := by
  have hunit : calcUnit sqrt55Approx vp600 seqF10 = 1000 / 37 := by
    unfold calcUnit
    rw [maxUnitSize_seqF10, min_eq_left (by norm_num), max_eq_right (by norm_num)]
  refine ⟨by rw [maxUnitSize_seqF10]; norm_num,
    by rw [maxUnitSize_seqF10]; norm_num, ?_⟩
  rw [hunit, sqrt55Approx_at_max, availableSize_vp600]
  norm_num

theorem unit_clamp_witness :
    (20 ≤ calcUnit sqrt55Approx vp600 seqF10 ∧
      calcUnit sqrt55Approx vp600 seqF10 ≤ 35) ∧
    sqrt55Approx (maxFibOf seqF10) * calcUnit sqrt55Approx vp600 seqF10 * (6 / 5) =
      availableSize vp600 * (6 / 5) := by
  have h := unit_clamp sqrt55Approx vp600 seqF10
  refine ⟨h.1, h.2 ?_ ?_ ?_⟩
  · rw [maxUnitSize_seqF10]
    norm_num
  · rw [maxUnitSize_seqF10]
    norm_num
  · rw [sqrt55Approx_at_max]
    norm_num

/-- C6: the final layout step applies one uniform translation to every
rectangle — widths and heights are preserved, and every min corner is shifted
by the same offset pair — so the bounding-box center of the output coincides
exactly with the viewport center; in particular for `[0, 1, 1, 2, 3, 5]` on
the 600×400 viewport (and any square root positive at the occurring values),
the layout returns exactly 6 rectangles, each of positive width and height,
whose joint bounding box is centered within ±1px of the viewport center
`(300, 200)`. -/
theorem spiral_centering :
    (∀ (s : ℚ → ℚ) (vp : Viewport) (seq : List Nat), 3 ≤ seq.length →
      ((calculate_spiral_rectangles s vp seq).map
          (fun r => (r.rect.width, r.rect.height)) =
        (calcTempRectangles s vp seq).temp.map (fun t => (t.1.width, t.1.height))) ∧
      ((calculate_spiral_rectangles s vp seq).map (fun r => r.rect.minX) =
        ((calcTempRectangles s vp seq).temp.map fun t => t.1.minX).map
          (fun x => x + spiralOffsetX vp (calcTempRectangles s vp seq))) ∧
      ((calculate_spiral_rectangles s vp seq).map (fun r => r.rect.minY) =
        ((calcTempRectangles s vp seq).temp.map fun t => t.1.minY).map
          (fun x => x + spiralOffsetY vp (calcTempRectangles s vp seq))) ∧
      outCenterX (calculate_spiral_rectangles s vp seq) = vp.centerX ∧
      outCenterY (calculate_spiral_rectangles s vp seq) = vp.centerY) ∧
    (∀ s : ℚ → ℚ, 0 < s 1 → 0 < s 2 → 0 < s 3 → 0 < s 5 →
      (calculate_spiral_rectangles s vp600 [0, 1, 1, 2, 3, 5]).length = 6 ∧
      (∀ r ∈ calculate_spiral_rectangles s vp600 [0, 1, 1, 2, 3, 5],
        0 < r.rect.width ∧ 0 < r.rect.height) ∧
      |outCenterX (calculate_spiral_rectangles s vp600 [0, 1, 1, 2, 3, 5]) - 300| ≤ 1 ∧
      |outCenterY (calculate_spiral_rectangles s vp600 [0, 1, 1, 2, 3, 5]) - 200| ≤ 1) := by
  constructor
  · intro s vp seq h
    refine ⟨?_, map_minX_out s vp seq h, map_minY_out s vp seq h,
      outCenterX_calc s vp seq h, outCenterY_calc s vp seq h⟩
    rw [calc_eq_map s vp seq h, List.map_map]
    rfl
  · intro s hs1 hs2 hs3 hs5
    have h6 : 3 ≤ List.length ([0, 1, 1, 2, 3, 5] : List Nat) := by decide
    have hvals : ∀ i ∈ List.range' 2
        (min (List.length ([0, 1, 1, 2, 3, 5] : List Nat)) 12 - 2),
        0 < s ((List.getD ([0, 1, 1, 2, 3, 5] : List Nat) i 0 : Nat) : ℚ) := by
      intro i hi
      rw [show List.range' 2
          (min (List.length ([0, 1, 1, 2, 3, 5] : List Nat)) 12 - 2) =
        [2, 3, 4, 5] from rfl] at hi
      fin_cases hi
      · simpa using hs1
      · simpa using hs2
      · simpa using hs3
      · simpa using hs5
    have hpos := calcTemp_pos s vp600 [0, 1, 1, 2, 3, 5] hs1 hvals
    refine ⟨?_, ?_, ?_, ?_⟩
    · rw [calc_eq_map s vp600 _ h6, List.length_map, calcTemp_temp_length]
      decide
    · intro r hr
      rw [calc_eq_map s vp600 _ h6] at hr
      obtain ⟨t, htm, rfl⟩ := List.mem_map.mp hr
      exact hpos.2.2 t htm
    · rw [outCenterX_calc s vp600 _ h6]
      norm_num [Viewport.centerX, vp600]
    · rw [outCenterY_calc s vp600 _ h6]
      norm_num [Viewport.centerY, vp600]

theorem spiral_centering_witness :
    (calculate_spiral_rectangles qid vp600 [0, 1, 1, 2, 3, 5]).length = 6 ∧
    |outCenterX (calculate_spiral_rectangles qid vp600 [0, 1, 1, 2, 3, 5]) - 300| ≤ 1 ∧
    |outCenterY (calculate_spiral_rectangles qid vp600 [0, 1, 1, 2, 3, 5]) - 200| ≤ 1 := by
  have h := spiral_centering.2 qid (by norm_num [qid]) (by norm_num [qid])
    (by norm_num [qid]) (by norm_num [qid])
  exact ⟨h.1, h.2.2.1, h.2.2.2⟩

/-- C7 (amended): for every square root, viewport and sequence of length at
least 3, the rectangle at output position `i` carries index `i`; for
`i ≥ 2` its value field is `sequence[i]`; the two seed squares at positions
0 and 1 carry the hardcoded value 1 regardless of the sequence contents
(which equals `sequence[1]` for Fibonacci input but differs from
`sequence[0] = 0`). Stated as: the value/index payload of the output list is
`[(1, 0), (1, 1)]` followed by `(sequence[i], i)` for
`i = 2, …, min(length, 12) - 1`. -/
theorem spiral_value_index_fields (s : ℚ → ℚ) (vp : Viewport) (seq : List Nat)
    (h : 3 ≤ seq.length) :
    (calculate_spiral_rectangles s vp seq).map (fun r => (r.value, r.index)) =
      [(1, 0), (1, 1)] ++
        (List.range' 2 (min seq.length 12 - 2)).map (fun i => (seq.getD i 0, i)) := by
  rw [calc_eq_map s vp seq h, List.map_map]
  exact calcTemp_payload s vp seq

/-- C7 counterexample: on the sequence `[0, 1, 1]` the output values are
`[1, 1, 1]`, not `[0, 1, 1]`: the seed rectangle at position 0 carries the
hardcoded value 1, not `sequence[0] = 0`. -/
theorem spiral_value_counterexample :
    (calculate_spiral_rectangles qid vp600 [0, 1, 1]).map (fun r => r.value) ≠
      [0, 1, 1] := by
  have hmap : (calculate_spiral_rectangles qid vp600 [0, 1, 1]).map
      (fun r => (r.value, r.index)) = [(1, 0), (1, 1), (1, 2)] := by
    rw [calc_eq_map qid vp600 [0, 1, 1] (by norm_num), List.map_map]
    exact (calcTemp_payload qid vp600 [0, 1, 1]).trans rfl
  have hv : (calculate_spiral_rectangles qid vp600 [0, 1, 1]).map
      (fun r => r.value) = [1, 1, 1] := by
    have h2 := congrArg (List.map Prod.fst) hmap
    simpa [List.map_map, Function.comp] using h2
  rw [hv]
  simp

theorem spiral_value_index_witness :
    (calculate_spiral_rectangles qid vp600 [0, 1, 1]).map (fun r => (r.value, r.index)) =
      [(1, 0), (1, 1), (1, 2)] := by
  have h := spiral_value_index_fields qid vp600 [0, 1, 1] (by decide)
  rw [h]
  rfl

end FibSpiral
